import Mathlib

/-!
Shallow embedding of the bounded audit recorder of `src/privacyAudit.ts`
(class `PrivacyAuditSystem`), together with proofs about the properties of
its operations `recordEvent`, `getAuditTrail` and `getStats`.

Modelling conventions:

* TypeScript string-union types (the entry `type`, `status` and `riskLevel`)
  are embedded as `String`: at runtime the annotations are erased and the
  functions operate on plain strings (`calculateRiskLevel` is even declared
  over `string` in the source).
* A `Record` object mapping strings to strings or numbers is embedded as an
  association list in key-insertion order, matching the enumeration order
  of `Object.entries` and the update-in-place / append-at-end behaviour of
  an assignment `obj[k] = v`.
* Values produced by `Math.random()` / `Date.now()` / `new Date()` during
  the creation of one entry (`generateId`, `now`, the random status pick,
  `generateIntegrityHash`, the simulated delays, the formatted query time)
  are supplied by an explicit `Oracle` argument.
* Mutation of `this` is explicit state passing on `RecorderState`.  A
  method with TS return type `void` is embedded as returning
  `RecorderState × Unit`, the `Unit` being its return value.
* The method `recordEvent` ends with a guarded call `this.autoExport()`
  when `AUDIT_CONFIG.autoExport` is set and the log length is a multiple
  of 10.  In JavaScript a call to an async function runs its body
  synchronously up to the first `await`; `autoExport` immediately awaits
  `exportAuditLog`, whose body — before its first `await sleep(...)` —
  checks `isExporting`, sets it to `true` and calls `recordEvent` again
  with category `system` and a message beginning with
  `Starting audit log export:`.  That nested `recordEvent` therefore runs
  synchronously inside the outer one and pushes one more entry.  Its own
  trailing auto-export check can re-enter `exportAuditLog`, which then
  returns at once because `isExporting` is already `true`, so the nested
  call has exactly the effect of the push-and-retention part of
  `recordEvent` (`recordEventCore` below).  Everything after the first
  `await` of `exportAuditLog` (the file write, the success or failure
  entry, the reset of `isExporting`) happens on a later event-loop turn
  and is outside the synchronous semantics embedded here.
* The module-level constant `AUDIT_CONFIG` is passed as an explicit `cfg`
  parameter; instantiating `cfg := AUDIT_CONFIG` recovers the source
  verbatim.
-/

namespace PrivacyAudit

/-- Embeds `interface AuditEntry` (src/privacyAudit.ts lines 15-26). -/
structure AuditEntry where
  id : String
  timestamp : String
  type : String
  message : String
  meta : Option (List (String × String))
  status : String
  integrityHash : Option String
  sessionId : String
  durationMs : Option Nat
  riskLevel : String
deriving Repr, DecidableEq

/-- Embeds `interface AuditStats` (lines 28-35).  The three count maps of
type `Record` from string to number are association lists in key-insertion
order. -/
structure AuditStats where
  totalRecords : Nat
  byType : List (String × Nat)
  byStatus : List (String × Nat)
  byRiskLevel : List (String × Nat)
  firstRecord : Option String
  lastRecord : Option String
deriving Repr, DecidableEq

/-- Embeds `interface AuditConfig` (lines 37-43). -/
structure AuditConfig where
  autoExport : Bool
  maxEntries : Nat
  riskThreshold : String
  enableCompression : Bool
  encryptionLevel : String
deriving Repr, DecidableEq

/-- Embeds `const AUDIT_CONFIG` (lines 46-52). -/
def AUDIT_CONFIG : AuditConfig :=
  { autoExport := true
    maxEntries := 10000
    riskThreshold := "HIGH"
    enableCompression := true
    encryptionLevel := "ZK-SNARK" }

/-- The values the random and time generators return during the creation of
one audit entry: `generateId`, `now`, the pick among Verified / Recorded /
Pending, `generateIntegrityHash`, the rounded processing delay and the
formatted query time. -/
structure Oracle where
  id : String
  timestamp : String
  status : String
  integrityHash : String
  durationMs : Nat
  queryTime : String
deriving Repr, DecidableEq

/-- The private fields of `class PrivacyAuditSystem` (lines 141-145). -/
structure RecorderState where
  auditLog : List AuditEntry
  sessionId : String
  isExporting : Bool
  startupTime : String
deriving Repr, DecidableEq

/-- Reads a key from the optional metadata record, as the TS expression
`meta?.key` does. -/
def metaGet (meta : Option (List (String × String))) (key : String) :
    Option String :=
  meta.bind fun m => (m.find? fun p => p.1 == key).map Prod.snd

/-- Embeds `function calculateRiskLevel(type, meta?)` (lines 117-129),
declared over `type: string` in the source, with a fall-through returning
LOW. -/
def calculateRiskLevel (type : String)
    (meta : Option (List (String × String))) : String :=
  if type = "system" then "LOW"
  else if type = "verification" then "MEDIUM"
  else if type = "inference" then
    if metaGet meta "sensitivity" = some "high" then "HIGH" else "MEDIUM"
  else if type = "proof" then
    if metaGet meta "complexity" = some "high" then "HIGH" else "MEDIUM"
  else "LOW"

/-- The `entry` object literal built by `recordEvent` (lines 165-176); the
generated fields come from the oracle. -/
def mkEntry (sessionId type message : String)
    (meta : Option (List (String × String))) (o : Oracle) : AuditEntry :=
  { id := o.id
    timestamp := o.timestamp
    type := type
    message := message
    meta := meta
    status := o.status
    integrityHash := some o.integrityHash
    sessionId := sessionId
    durationMs := some o.durationMs
    riskLevel := calculateRiskLevel type meta }

/-- The retention policy (lines 181-183): when the length exceeds
`maxEntries`, the log is replaced by `auditLog.slice(-maxEntries)`, which
keeps the last `maxEntries` elements, i.e. drops `length - maxEntries`
from the front. -/
def applyRetention (cfg : AuditConfig) (log : List AuditEntry) :
    List AuditEntry :=
  if log.length > cfg.maxEntries then log.drop (log.length - cfg.maxEntries)
  else log

/-- Lines 160-186 of `recordEvent`: build the entry, push it, apply the
retention policy (the console logging has no state effect).  This is
`recordEvent` without its trailing auto-export step. -/
def recordEventCore (cfg : AuditConfig) (s : RecorderState)
    (type message : String) (meta : Option (List (String × String)))
    (o : Oracle) : RecorderState :=
  { s with auditLog := (applyRetention cfg
      (s.auditLog ++ [mkEntry s.sessionId type message meta o])) }

/-- The metadata of the export-start entry recorded by `exportAuditLog`
(lines 243-246); its `records` value is the log length at that point. -/
def exportStartMeta (s : RecorderState) : List (String × String) :=
  [("records", toString s.auditLog.length), ("format", "JSON")]

/-- The auto-export condition of lines 189-191:
`AUDIT_CONFIG.autoExport && this.auditLog.length % 10 === 0`, checked after
the push and the retention step. -/
def autoExportTrigger (cfg : AuditConfig) (s : RecorderState) : Bool :=
  cfg.autoExport && s.auditLog.length % 10 == 0

/-- Embeds `recordEvent` (lines 155-192), including the synchronous part of
the auto-export it may start.  When the trigger fires and no export is in
flight, `exportAuditLog` synchronously sets `isExporting` and records one
entry of category `system` whose message starts with
`Starting audit log export:` (the export id from `generateId` is supplied
by `oExp`) before suspending at its first `await`; the nested call has
exactly the effect of `recordEventCore` (see the module comment).  The
`Unit` component is the TS return value: the method is declared `void` and
returns nothing. -/
def recordEvent (cfg : AuditConfig) (s : RecorderState)
    (type message : String) (meta : Option (List (String × String)))
    (o oExp : Oracle) : RecorderState × Unit :=
  let s1 := recordEventCore cfg s type message meta o
  if autoExportTrigger cfg s1 then
    if s1.isExporting then (s1, ())
    else
      let s2 := { s1 with isExporting := true }
      (recordEventCore cfg s2 "system"
        ("Starting audit log export: " ++ oExp.id)
        (some (exportStartMeta s2)) oExp, ())
  else (s1, ())

/-- Embeds the constructor (lines 147-153): fresh empty log, a fresh
session id and startup time (oracle-supplied), then one bootstrap
`recordEvent` of category `system` with the initialization message. -/
def initSystem (cfg : AuditConfig) (sessionId startupTime : String)
    (o oExp : Oracle) : RecorderState :=
  (recordEvent cfg
    { auditLog := [], sessionId := sessionId, isExporting := false,
      startupTime := startupTime }
    "system" "Privacy Audit System initialized"
    (some [("version", "2.1.0"), ("encryption", cfg.encryptionLevel),
           ("sessionId", sessionId)]) o oExp).1

/-- Models the TS truthiness test of the optional `limit` on line 220:
`undefined` and `0` are falsy. -/
def jsTruthyLimit : Option Nat → Bool
  | none => false
  | some k => k != 0

/-- Models `array.slice(-k)` for `k ≥ 1`: the last `min k length`
elements. -/
def jsSliceNeg (k : Nat) (xs : List AuditEntry) : List AuditEntry :=
  xs.drop (xs.length - k)

/-- The `limit` metadata value of line 226, built from
`limit?.toString() || none-marker`: calling `toString` on `0` yields the
nonempty, hence truthy, string `0`, so only `undefined` maps to the marker
string `none`. -/
def limitStr : Option Nat → String
  | none => "none"
  | some k => toString k

/-- The `records` value computed by `getAuditTrail` on line 220:
`limit ? this.auditLog.slice(-limit) : [...this.auditLog]`. -/
def queryRecords (s : RecorderState) (limit : Option Nat) :
    List AuditEntry :=
  if jsTruthyLimit limit then jsSliceNeg (limit.getD 0) s.auditLog
  else s.auditLog

/-- The message of the telemetry entry recorded by `getAuditTrail`
(line 225). -/
def queryMessage (s : RecorderState) (limit : Option Nat) : String :=
  "Audit trail queried - " ++ toString (queryRecords s limit).length ++
    " records retrieved"

/-- The metadata of the telemetry entry recorded by `getAuditTrail`
(lines 226-227). -/
def queryMeta (limit : Option Nat) (o : Oracle) : List (String × String) :=
  [("limit", limitStr limit), ("queryTime", o.queryTime ++ "ms")]

/-- Embeds `getAuditTrail(limit?)` (lines 219-231): compute `records` from
the current log, then record one telemetry entry of category `system`
(which may itself start an auto-export), then return `records`. -/
def getAuditTrail (cfg : AuditConfig) (s : RecorderState)
    (limit : Option Nat) (o oExp : Oracle) :
    RecorderState × List AuditEntry :=
  ((recordEvent cfg s "system" (queryMessage s limit)
      (some (queryMeta limit o)) o oExp).1,
    queryRecords s limit)

/-- Models the count update `stats.m[k] = (stats.m[k] || 0) + 1` on a
`Record` from string to number: increment in place when the key is present,
else append it with count 1. -/
def bump : List (String × Nat) → String → List (String × Nat)
  | [], key => [(key, 1)]
  | (k, v) :: rest, key =>
    if k = key then (k, v + 1) :: rest else (k, v) :: bump rest key

/-- One iteration of the `forEach` loop of `getStats` (lines 305-309). -/
def statsStep (st : AuditStats) (e : AuditEntry) : AuditStats :=
  { st with
    byType := bump st.byType e.type
    byStatus := bump st.byStatus e.status
    byRiskLevel := bump st.byRiskLevel e.riskLevel }

/-- Models the expression `auditLog[i]?.timestamp || null`: a missing entry
gives null, and an empty timestamp string is falsy and also maps to
null. -/
def jsTimestampOrNull : Option AuditEntry → Option String
  | none => none
  | some a => if a.timestamp = "" then none else some a.timestamp

/-- The body of `getStats` (lines 295-312) as a function of the log. -/
def statsOf (log : List AuditEntry) : AuditStats :=
  log.foldl statsStep
    { totalRecords := log.length
      byType := []
      byStatus := []
      byRiskLevel := []
      firstRecord := jsTimestampOrNull log.head?
      lastRecord := jsTimestampOrNull log.getLast? }

/-- Embeds `getStats()` (lines 295-312): it reads `this.auditLog` and
builds the stats; it writes no field of `this`, so the state passes
through unchanged. -/
def getStats (s : RecorderState) : RecorderState × AuditStats :=
  (s, statsOf s.auditLog)

/-- One `recordEvent` call together with its oracles, for iterating. -/
structure EventInput where
  type : String
  message : String
  meta : Option (List (String × String))
deriving Repr, DecidableEq

/-- A sequence of `recordEvent` calls. -/
def appendMany (cfg : AuditConfig) :
    RecorderState → List (EventInput × Oracle × Oracle) → RecorderState
  | s, [] => s
  | s, (i, o, oExp) :: rest =>
    appendMany cfg (recordEvent cfg s i.type i.message i.meta o oExp).1 rest

/-- The entries a sequence of `recordEvent` calls creates (the entry built
by `recordEvent` depends on the state only through the session id). -/
def entriesOf (sessionId : String) :
    List (EventInput × Oracle × Oracle) → List AuditEntry
  | [] => []
  | (i, o, _) :: rest =>
    mkEntry sessionId i.type i.message i.meta o :: entriesOf sessionId rest

/-- Sum of the counts of an embedded `Record` from string to number. -/
def sumVals (m : List (String × Nat)) : Nat := (m.map Prod.snd).sum

/-- The risk-level rule exactly as the specification words it: category
system gives low; verification gives medium; inference gives high when the
metadata key sensitivity equals high and medium otherwise; proof gives
high when the metadata key complexity equals high and medium otherwise;
any other or unknown category gives low.  Stated for comparison with
`calculateRiskLevel`. -/
def riskLevelSpec (type : String)
    (meta : Option (List (String × String))) : String :=
  if type = "system" then "LOW"
  else if type = "verification" then "MEDIUM"
  else if type = "inference" then
    if metaGet meta "sensitivity" = some "high" then "HIGH" else "MEDIUM"
  else if type = "proof" then
    if metaGet meta "complexity" = some "high" then "HIGH" else "MEDIUM"
  else "LOW"

/-! ### Helper lemmas about the retention policy -/

theorem applyRetention_length (cfg : AuditConfig) (l : List AuditEntry) :
    (applyRetention cfg l).length = min l.length cfg.maxEntries := by
  unfold applyRetention
  split
  · simp
    omega
  · simp
    omega

theorem applyRetention_eq_of_le (cfg : AuditConfig) (l : List AuditEntry)
    (h : l.length ≤ cfg.maxEntries) : applyRetention cfg l = l := by
  unfold applyRetention
  rw [if_neg (by omega)]

theorem applyRetention_suffix (cfg : AuditConfig) (l : List AuditEntry) :
    applyRetention cfg l <:+ l := by
  unfold applyRetention
  split
  · exact List.drop_suffix _ _
  · exact List.suffix_refl _

theorem applyRetention_drop (cfg : AuditConfig) (l : List AuditEntry)
    (d : Nat) (h : cfg.maxEntries + d ≤ l.length) :
    applyRetention cfg (l.drop d) = applyRetention cfg l := by
  unfold applyRetention
  simp only [List.length_drop, List.drop_drop]
  by_cases h1 : l.length - d > cfg.maxEntries
  · rw [if_pos h1, if_pos (by omega)]
    congr 1
    omega
  · rw [if_neg h1]
    by_cases h2 : l.length > cfg.maxEntries
    · rw [if_pos h2]
      congr 1
      omega
    · rw [if_neg h2]
      have hd : d = 0 := by omega
      rw [hd, List.drop_zero]

theorem applyRetention_append (cfg : AuditConfig) (A ys : List AuditEntry) :
    applyRetention cfg (applyRetention cfg A ++ ys) =
      applyRetention cfg (A ++ ys) := by
  by_cases h : A.length > cfg.maxEntries
  · have h1 : applyRetention cfg A = A.drop (A.length - cfg.maxEntries) := by
      unfold applyRetention
      rw [if_pos h]
    rw [h1, ← List.drop_append_of_le_length (by omega)]
    exact applyRetention_drop cfg (A ++ ys) _ (by simp; omega)
  · rw [applyRetention_eq_of_le cfg A (by omega)]

/-! ### Helper lemmas about recordEvent -/

theorem recordEventCore_sessionId (cfg : AuditConfig) (s : RecorderState)
    (type message : String) (meta : Option (List (String × String)))
    (o : Oracle) :
    (recordEventCore cfg s type message meta o).sessionId = s.sessionId :=
  rfl

theorem recordEventCore_isExporting (cfg : AuditConfig) (s : RecorderState)
    (type message : String) (meta : Option (List (String × String)))
    (o : Oracle) :
    (recordEventCore cfg s type message meta o).isExporting =
      s.isExporting :=
  rfl

/-- A `recordEvent` call results either in the plain push-and-retention
state, or — when the auto-export fires — in that state followed by one more
push-and-retention of the export-start entry with `isExporting` set. -/
theorem recordEvent_cases (cfg : AuditConfig) (s : RecorderState)
    (type message : String) (meta : Option (List (String × String)))
    (o oExp : Oracle) :
    (recordEvent cfg s type message meta o oExp).1 =
        recordEventCore cfg s type message meta o ∨
    (recordEvent cfg s type message meta o oExp).1 =
        recordEventCore cfg
          { recordEventCore cfg s type message meta o with
              isExporting := true }
          "system" ("Starting audit log export: " ++ oExp.id)
          (some (exportStartMeta
            { recordEventCore cfg s type message meta o with
                isExporting := true }))
          oExp := by
  by_cases h1 : autoExportTrigger cfg (recordEventCore cfg s type message meta o)
  · by_cases h2 : (recordEventCore cfg s type message meta o).isExporting
    · left
      simp [recordEvent, h1, h2]
    · right
      simp [recordEvent, h1, h2]
  · left
    simp [recordEvent, h1]

/-- When auto-export is disabled or an export is already in flight, a
`recordEvent` call is exactly the push-and-retention step. -/
theorem recordEvent_noTrigger (cfg : AuditConfig) (s : RecorderState)
    (type message : String) (meta : Option (List (String × String)))
    (o oExp : Oracle)
    (h : cfg.autoExport = false ∨ s.isExporting = true) :
    (recordEvent cfg s type message meta o oExp).1 =
      recordEventCore cfg s type message meta o := by
  rcases h with h | h
  · have h1 : autoExportTrigger cfg
        (recordEventCore cfg s type message meta o) = false := by
      simp [autoExportTrigger, h]
    simp [recordEvent, h1]
  · by_cases h1 : autoExportTrigger cfg
        (recordEventCore cfg s type message meta o)
    · have h2 : (recordEventCore cfg s type message meta o).isExporting =
          true := h
      simp [recordEvent, h1, h2]
    · simp [recordEvent, h1]

theorem recordEvent_sessionId (cfg : AuditConfig) (s : RecorderState)
    (type message : String) (meta : Option (List (String × String)))
    (o oExp : Oracle) :
    (recordEvent cfg s type message meta o oExp).1.sessionId =
      s.sessionId := by
  rcases recordEvent_cases cfg s type message meta o oExp with h | h <;>
    rw [h] <;> rfl

/-- After any `recordEvent` call the log length is at most `maxEntries`
(the retention step caps every push). -/
theorem recordEvent_length_le (cfg : AuditConfig) (s : RecorderState)
    (type message : String) (meta : Option (List (String × String)))
    (o oExp : Oracle) :
    (recordEvent cfg s type message meta o oExp).1.auditLog.length ≤
      cfg.maxEntries := by
  rcases recordEvent_cases cfg s type message meta o oExp with h | h <;>
      rw [h] <;>
    · show (applyRetention _ _).length ≤ _
      rw [applyRetention_length]
      omega

theorem entriesOf_length (sessionId : String)
    (evs : List (EventInput × Oracle × Oracle)) :
    (entriesOf sessionId evs).length = evs.length := by
  induction evs with
  | nil => rfl
  | cons ev rest ih =>
    obtain ⟨i, o, oe⟩ := ev
    simp [entriesOf, ih]

/-- Iterated `recordEvent` with auto-export out of the way (disabled, or an
export already in flight) is the retention-capped concatenation of the
created entries. -/
theorem appendMany_noExport (cfg : AuditConfig)
    (evs : List (EventInput × Oracle × Oracle)) :
    ∀ s : RecorderState,
      cfg.autoExport = false ∨ s.isExporting = true →
      s.auditLog.length ≤ cfg.maxEntries →
      (appendMany cfg s evs).auditLog =
          applyRetention cfg (s.auditLog ++ entriesOf s.sessionId evs) ∧
        (appendMany cfg s evs).sessionId = s.sessionId := by
  induction evs with
  | nil =>
    intro s _ hl
    refine ⟨?_, rfl⟩
    rw [show entriesOf s.sessionId [] = [] from rfl, List.append_nil]
    exact (applyRetention_eq_of_le cfg _ hl).symm
  | cons ev rest ih =>
    intro s h hl
    obtain ⟨i, o, oe⟩ := ev
    rw [show appendMany cfg s ((i, o, oe) :: rest) =
        appendMany cfg (recordEvent cfg s i.type i.message i.meta o oe).1
          rest from rfl,
      recordEvent_noTrigger cfg s i.type i.message i.meta o oe h]
    have h' : cfg.autoExport = false ∨
        (recordEventCore cfg s i.type i.message i.meta o).isExporting =
          true := by
      rcases h with h | h
      · exact Or.inl h
      · exact Or.inr h
    have hl' : (recordEventCore cfg s i.type i.message i.meta
        o).auditLog.length ≤ cfg.maxEntries := by
      show (applyRetention _ _).length ≤ _
      rw [applyRetention_length]
      omega
    obtain ⟨e1, e2⟩ := ih (recordEventCore cfg s i.type i.message i.meta o)
      h' hl'
    refine ⟨?_, by rw [e2]; rfl⟩
    rw [e1]
    show applyRetention cfg
        (applyRetention cfg (s.auditLog ++
            [mkEntry s.sessionId i.type i.message i.meta o]) ++
          entriesOf s.sessionId rest) = _
    rw [applyRetention_append]
    rw [show entriesOf s.sessionId ((i, o, oe) :: rest) =
        mkEntry s.sessionId i.type i.message i.meta o ::
          entriesOf s.sessionId rest from rfl]
    simp

/-- The exact log length after one `recordEvent` call, from a state whose
log respects the bound: one push, plus a second one when the auto-export
fires. -/
theorem recordEvent_length_eq (cfg : AuditConfig) (s : RecorderState)
    (type message : String) (meta : Option (List (String × String)))
    (o oExp : Oracle) (hlen : s.auditLog.length ≤ cfg.maxEntries) :
    (recordEvent cfg s type message meta o oExp).1.auditLog.length =
      if autoExportTrigger cfg (recordEventCore cfg s type message meta o)
          && !s.isExporting then
        min (s.auditLog.length + 2) cfg.maxEntries
      else min (s.auditLog.length + 1) cfg.maxEntries := by
  have hcore : (recordEventCore cfg s type message meta
      o).auditLog.length = min (s.auditLog.length + 1) cfg.maxEntries := by
    show (applyRetention _ _).length = _
    rw [applyRetention_length]
    simp
  by_cases h1 : autoExportTrigger cfg
      (recordEventCore cfg s type message meta o)
  · by_cases h2 : (recordEventCore cfg s type message meta o).isExporting
    · have h2s : s.isExporting = true := h2
      simp only [recordEvent, h1, h2, if_true, if_pos]
      rw [if_neg (by simp [h2s]), hcore]
    · have h2s : s.isExporting = false := by
        rw [← recordEventCore_isExporting cfg s type message meta o]
        simp [h2]
      rw [if_pos (by simp [h1, h2s])]
      have : (recordEvent cfg s type message meta o oExp).1 =
          recordEventCore cfg
            { recordEventCore cfg s type message meta o with
                isExporting := true }
            "system" ("Starting audit log export: " ++ oExp.id)
            (some (exportStartMeta
              { recordEventCore cfg s type message meta o with
                  isExporting := true })) oExp := by
        simp [recordEvent, h1, h2]
      rw [this]
      show (applyRetention _ _).length = _
      rw [applyRetention_length]
      simp only [List.length_append, List.length_singleton]
      show min ((recordEventCore cfg s type message meta
        o).auditLog.length + 1) cfg.maxEntries = _
      rw [hcore]
      omega
  · rw [if_neg (by simp [h1])]
    have : (recordEvent cfg s type message meta o oExp).1 =
        recordEventCore cfg s type message meta o := by
      simp [recordEvent, h1]
    rw [this, hcore]

/-- A push that stays under the bound and does not land on a multiple of
ten is a plain append. -/
theorem recordEvent_step (cfg : AuditConfig) (s : RecorderState)
    (type message : String) (meta : Option (List (String × String)))
    (o oExp : Oracle) (hM : s.auditLog.length + 1 ≤ cfg.maxEntries)
    (h10 : (s.auditLog.length + 1) % 10 ≠ 0) :
    (recordEvent cfg s type message meta o oExp).1 =
      { s with auditLog :=
          s.auditLog ++ [mkEntry s.sessionId type message meta o] } := by
  have hc : recordEventCore cfg s type message meta o =
      { s with auditLog :=
          s.auditLog ++ [mkEntry s.sessionId type message meta o] } := by
    unfold recordEventCore
    rw [applyRetention_eq_of_le _ _ (by simp; omega)]
  have ht : autoExportTrigger cfg
      { s with auditLog :=
          s.auditLog ++ [mkEntry s.sessionId type message meta o] } =
      false := by
    simp [autoExportTrigger, h10]
  simp [recordEvent, hc, ht]

/-- The last element of a retention-capped push is the pushed entry, as
long as the capacity is positive. -/
theorem applyRetention_getLast_concat (cfg : AuditConfig)
    (log : List AuditEntry) (e : AuditEntry)
    (hM : 1 ≤ cfg.maxEntries) :
    (applyRetention cfg (log ++ [e])).getLast? = some e := by
  unfold applyRetention
  split
  · rename_i h
    rw [List.drop_append_of_le_length (by simp at h ⊢; omega)]
    exact List.getLast?_concat _
  · exact List.getLast?_concat _

/-! ### Helper lemmas about getStats -/

theorem sumVals_bump (m : List (String × Nat)) (key : String) :
    sumVals (bump m key) = sumVals m + 1 := by
  induction m with
  | nil => rfl
  | cons p rest ih =>
    obtain ⟨k, v⟩ := p
    by_cases h : k = key
    · simp [bump, h, sumVals]
      omega
    · simp only [bump, if_neg h]
      simp only [sumVals, List.map_cons, List.sum_cons] at ih ⊢
      omega

theorem foldl_statsStep (log : List AuditEntry) :
    ∀ st : AuditStats,
      (log.foldl statsStep st).totalRecords = st.totalRecords ∧
      (log.foldl statsStep st).firstRecord = st.firstRecord ∧
      (log.foldl statsStep st).lastRecord = st.lastRecord ∧
      sumVals (log.foldl statsStep st).byType =
        sumVals st.byType + log.length ∧
      sumVals (log.foldl statsStep st).byStatus =
        sumVals st.byStatus + log.length ∧
      sumVals (log.foldl statsStep st).byRiskLevel =
        sumVals st.byRiskLevel + log.length := by
  induction log with
  | nil =>
    intro st
    exact ⟨rfl, rfl, rfl, rfl, rfl, rfl⟩
  | cons e rest ih =>
    intro st
    simp only [List.foldl_cons, List.length_cons]
    obtain ⟨t1, t2, t3, t4, t5, t6⟩ := ih (statsStep st e)
    refine ⟨t1, t2, t3, ?_, ?_, ?_⟩
    · rw [t4]
      show sumVals (bump st.byType e.type) + _ = _
      rw [sumVals_bump]
      omega
    · rw [t5]
      show sumVals (bump st.byStatus e.status) + _ = _
      rw [sumVals_bump]
      omega
    · rw [t6]
      show sumVals (bump st.byRiskLevel e.riskLevel) + _ = _
      rw [sumVals_bump]
      omega

/-! ### Session-id invariant -/

/-- Every entry of the log carries the session id of the recorder. -/
def SessionInv (s : RecorderState) : Prop :=
  ∀ e ∈ s.auditLog, e.sessionId = s.sessionId

instance (s : RecorderState) : Decidable (SessionInv s) :=
  inferInstanceAs (Decidable (∀ e ∈ s.auditLog, e.sessionId = s.sessionId))

theorem sessionInv_recordEventCore (cfg : AuditConfig) (s : RecorderState)
    (type message : String) (meta : Option (List (String × String)))
    (o : Oracle) (h : SessionInv s) :
    SessionInv (recordEventCore cfg s type message meta o) := by
  intro e he
  have h1 : e ∈ s.auditLog ++ [mkEntry s.sessionId type message meta o] :=
    (applyRetention_suffix cfg _).subset he
  rw [recordEventCore_sessionId]
  rcases List.mem_append.mp h1 with h2 | h2
  · exact h e h2
  · rw [List.mem_singleton.mp h2]
    rfl

theorem sessionInv_recordEvent (cfg : AuditConfig) (s : RecorderState)
    (type message : String) (meta : Option (List (String × String)))
    (o oExp : Oracle) (h : SessionInv s) :
    SessionInv (recordEvent cfg s type message meta o oExp).1 := by
  rcases recordEvent_cases cfg s type message meta o oExp with hc | hc <;>
    rw [hc]
  · exact sessionInv_recordEventCore cfg s type message meta o h
  · apply sessionInv_recordEventCore
    intro e he
    exact sessionInv_recordEventCore cfg s type message meta o h e he

/-! ### Concrete fixtures used by witnesses and counterexamples -/

/-- A sample oracle for concrete runs. -/
def oW : Oracle :=
  { id := "AUD-1", timestamp := "2026-10-11 12:00:00",
    status := "Recorded", integrityHash := "0xab", durationMs := 120,
    queryTime := "42.00" }

/-- The state of a freshly constructed recorder (one bootstrap entry). -/
def s1W : RecorderState := initSystem AUDIT_CONFIG "SESS-W" "boot" oW oW

/-- A small configuration with capacity two and auto-export disabled. -/
def cfgW : AuditConfig :=
  { autoExport := false, maxEntries := 2, riskThreshold := "HIGH",
    enableCompression := true, encryptionLevel := "ZK-SNARK" }

/-- An empty recorder state. -/
def sEmptyW : RecorderState :=
  { auditLog := [], sessionId := "S", isExporting := false,
    startupTime := "boot" }

/-- Three events, one more than the capacity of `cfgW`. -/
def evsW : List (EventInput × Oracle × Oracle) :=
  [({ type := "proof", message := "a", meta := none }, oW, oW),
   ({ type := "system", message := "b", meta := none }, oW, oW),
   ({ type := "verification", message := "c", meta := none }, oW, oW)]

/-- Eight plain events; after them `s1W` has grown to a nine-entry log. -/
def evs8W : List (EventInput × Oracle × Oracle) :=
  [({ type := "proof", message := "e1", meta := none }, oW, oW),
   ({ type := "proof", message := "e2", meta := none }, oW, oW),
   ({ type := "proof", message := "e3", meta := none }, oW, oW),
   ({ type := "proof", message := "e4", meta := none }, oW, oW),
   ({ type := "proof", message := "e5", meta := none }, oW, oW),
   ({ type := "proof", message := "e6", meta := none }, oW, oW),
   ({ type := "proof", message := "e7", meta := none }, oW, oW),
   ({ type := "proof", message := "e8", meta := none }, oW, oW)]

/-- A nine-entry recorder state with no export in flight: the next
`recordEvent` lands on a log length of ten and fires the auto-export. -/
def s9W : RecorderState := appendMany AUDIT_CONFIG s1W evs8W

/-! ### C2: risk-level derivation -/

/-- **C2** (confirmed).  The risk level of an entry is a pure, total
function of category and metadata alone: `calculateRiskLevel` agrees with
the spec rule (system low; verification medium; inference high iff
metadata sensitivity is high, else medium; proof high iff metadata
complexity is high, else medium; anything else low), the entry built by an
append carries exactly that value, and two entries built from identical
(category, metadata) — in different states, with different messages and
different generated fields — always carry the same risk level. -/
theorem c2_riskLevelPure (type : String)
    (meta : Option (List (String × String)))
    (sid1 sid2 msg1 msg2 : String) (o1 o2 : Oracle) :
    calculateRiskLevel type meta = riskLevelSpec type meta ∧
    (mkEntry sid1 type msg1 meta o1).riskLevel =
      calculateRiskLevel type meta ∧
    (mkEntry sid1 type msg1 meta o1).riskLevel =
      (mkEntry sid2 type msg2 meta o2).riskLevel :=
  ⟨rfl, rfl, rfl⟩

/-! ### C10: getStats does not mutate -/

/-- **C10** (confirmed).  `getStats` never mutates the recorder: the state
it returns is the input state (same log, same session id), and a second
`getStats` with no intervening append returns the same statistics. -/
theorem c10_getStatsPure (s : RecorderState) :
    (getStats s).1 = s ∧
    (getStats s).1.auditLog = s.auditLog ∧
    (getStats s).1.sessionId = s.sessionId ∧
    (getStats (getStats s).1).2 = (getStats s).2 :=
  ⟨rfl, rfl, rfl, rfl⟩

/-! ### C4: statistics consistency -/

/-- **C4** (confirmed).  For every log state whose entries carry nonempty
timestamps (every timestamp the code generates via `now()` is a nonempty
date string), `getStats` returns `totalRecords` equal to the log length;
per-category, per-status and per-risk-level count maps that each sum to
`totalRecords`; and first/last record timestamps equal to those of the
oldest and newest entries.  On an empty log it returns zero, three empty
maps and null first/last records. -/
theorem c4_statsConsistency (s : RecorderState)
    (h : ∀ e ∈ s.auditLog, e.timestamp ≠ "") :
    (getStats s).2.totalRecords = s.auditLog.length ∧
    sumVals (getStats s).2.byType = (getStats s).2.totalRecords ∧
    sumVals (getStats s).2.byStatus = (getStats s).2.totalRecords ∧
    sumVals (getStats s).2.byRiskLevel = (getStats s).2.totalRecords ∧
    (getStats s).2.firstRecord = s.auditLog.head?.map AuditEntry.timestamp ∧
    (getStats s).2.lastRecord =
      s.auditLog.getLast?.map AuditEntry.timestamp ∧
    (s.auditLog = [] →
      (getStats s).2 =
        { totalRecords := 0, byType := [], byStatus := [],
          byRiskLevel := [], firstRecord := none, lastRecord := none }) := by
  obtain ⟨t1, t2, t3, t4, t5, t6⟩ :=
    foldl_statsStep s.auditLog
      { totalRecords := s.auditLog.length
        byType := []
        byStatus := []
        byRiskLevel := []
        firstRecord := jsTimestampOrNull s.auditLog.head?
        lastRecord := jsTimestampOrNull s.auditLog.getLast? }
  have hfirst : jsTimestampOrNull s.auditLog.head? =
      s.auditLog.head?.map AuditEntry.timestamp := by
    cases hh : s.auditLog.head? with
    | none => rfl
    | some a =>
      have ha : a ∈ s.auditLog := List.mem_of_mem_head? (by rw [hh]; rfl)
      simp [jsTimestampOrNull, h a ha]
  have hlast : jsTimestampOrNull s.auditLog.getLast? =
      s.auditLog.getLast?.map AuditEntry.timestamp := by
    cases hh : s.auditLog.getLast? with
    | none => rfl
    | some a =>
      have ha : a ∈ s.auditLog := List.mem_of_mem_getLast? (by rw [hh]; rfl)
      simp [jsTimestampOrNull, h a ha]
  refine ⟨t1, ?_, ?_, ?_, ?_, ?_, ?_⟩
  · rw [show (getStats s).2 = statsOf s.auditLog from rfl, statsOf]
    rw [t4, t1]
    simp [sumVals]
  · rw [show (getStats s).2 = statsOf s.auditLog from rfl, statsOf]
    rw [t5, t1]
    simp [sumVals]
  · rw [show (getStats s).2 = statsOf s.auditLog from rfl, statsOf]
    rw [t6, t1]
    simp [sumVals]
  · rw [show (getStats s).2 = statsOf s.auditLog from rfl, statsOf]
    rw [t2]
    exact hfirst
  · rw [show (getStats s).2 = statsOf s.auditLog from rfl, statsOf]
    rw [t3]
    exact hlast
  · intro hnil
    rw [show (getStats s).2 = statsOf s.auditLog from rfl, hnil]
    rfl

/-- Witness for C4 at the concrete one-entry state `s1W`. -/
theorem c4_statsConsistency_witness :
    (∀ e ∈ s1W.auditLog, e.timestamp ≠ "") ∧
    (getStats s1W).2.totalRecords = s1W.auditLog.length ∧
    sumVals (getStats s1W).2.byRiskLevel =
      (getStats s1W).2.totalRecords :=
  ⟨by decide,
    (c4_statsConsistency s1W (by decide)).1,
    (c4_statsConsistency s1W (by decide)).2.2.2.1⟩

/-! ### C8: session-id invariant -/

/-- **C8** (confirmed).  Every entry of a recorder log carries the session
id assigned at construction: the constructor establishes the invariant
(and sets the session id it was given), and `recordEvent`, `getAuditTrail`
and `getStats` preserve both the invariant and the session id itself. -/
theorem c8_sessionIdInvariant (cfg : AuditConfig)
    (sid startup type message : String)
    (meta : Option (List (String × String))) (limit : Option Nat)
    (o oExp : Oracle) (s : RecorderState) :
    SessionInv (initSystem cfg sid startup o oExp) ∧
    (initSystem cfg sid startup o oExp).sessionId = sid ∧
    (SessionInv s →
      SessionInv (recordEvent cfg s type message meta o oExp).1) ∧
    (recordEvent cfg s type message meta o oExp).1.sessionId =
      s.sessionId ∧
    (SessionInv s → SessionInv (getAuditTrail cfg s limit o oExp).1) ∧
    (getAuditTrail cfg s limit o oExp).1.sessionId = s.sessionId ∧
    (getStats s).1 = s := by
  refine ⟨?_, ?_, ?_, ?_, ?_, ?_, rfl⟩
  · exact sessionInv_recordEvent cfg _ _ _ _ o oExp (by intro e he; cases he)
  · exact recordEvent_sessionId cfg _ _ _ _ o oExp
  · exact sessionInv_recordEvent cfg s type message meta o oExp
  · exact recordEvent_sessionId cfg s type message meta o oExp
  · exact sessionInv_recordEvent cfg s "system" (queryMessage s limit)
      (some (queryMeta limit o)) o oExp
  · exact recordEvent_sessionId cfg s "system" (queryMessage s limit)
      (some (queryMeta limit o)) o oExp

/-- Witness for C8 at the concrete one-entry state `s1W`. -/
theorem c8_sessionIdInvariant_witness :
    SessionInv s1W ∧
    SessionInv (recordEvent AUDIT_CONFIG s1W "proof" "m" none oW oW).1 ∧
    SessionInv (getAuditTrail AUDIT_CONFIG s1W none oW oW).1 :=
  ⟨by decide,
    (c8_sessionIdInvariant AUDIT_CONFIG "SESS-W" "boot" "proof" "m" none
      none oW oW s1W).2.2.1 (by decide),
    (c8_sessionIdInvariant AUDIT_CONFIG "SESS-W" "boot" "proof" "m" none
      none oW oW s1W).2.2.2.2.1 (by decide)⟩

/-! ### C1: bounded retention -/

/-- **C1** counterexample.  From the reachable nine-entry state `s9W`
(constructed recorder plus eight appends, no export in flight), one more
append does not leave the new entry at the end of the log: the push makes
the length ten, the auto-export fires, and a second system entry
(export-start telemetry) lands after it, leaving eleven entries — not ten
— with a system entry, not the appended one, last. -/
theorem c1_counterexample :
    s9W.auditLog.length = 9 ∧
    (recordEvent AUDIT_CONFIG s9W "proof" "p" none oW oW).1.auditLog.length =
      11 ∧
    (recordEvent AUDIT_CONFIG s9W "proof" "p" none
        oW oW).1.auditLog.getLast? ≠
      some (mkEntry s9W.sessionId "proof" "p" none oW) ∧
    (recordEvent AUDIT_CONFIG s9W "proof" "p" none oW oW).1.auditLog.get? 9 =
      some (mkEntry s9W.sessionId "proof" "p" none oW) := by
  refine ⟨by decide, by decide, by decide, by decide⟩

/-- **C1** (amended).  Starting from any state whose log length is at most
`maxEntries`, every append leaves the length at most `maxEntries`.  The
push-and-retention step places the new entry at the end, evicts from the
front until the length is exactly `maxEntries` whenever it would exceed
it, and keeps the surviving entries unmodified in relative order (the
capped log is a suffix of the old log with the new entry appended); when
the auto-export cannot fire (disabled, or an export already in flight) the
whole append is exactly that step, otherwise one additional system
export-start entry may follow the new entry.  With the auto-export out of
the way, appending `maxEntries + k` entries (k ≥ 1) leaves exactly the
most recent `maxEntries` created entries in their original relative
order. -/
theorem c1_boundedRetention (cfg : AuditConfig) (s : RecorderState)
    (type message : String) (meta : Option (List (String × String)))
    (o oExp : Oracle) (hlen : s.auditLog.length ≤ cfg.maxEntries) :
    (recordEvent cfg s type message meta o oExp).1.auditLog.length ≤
        cfg.maxEntries ∧
      ((cfg.autoExport = false ∨ s.isExporting = true) →
        (recordEvent cfg s type message meta o oExp).1.auditLog =
          applyRetention cfg
            (s.auditLog ++ [mkEntry s.sessionId type message meta o])) ∧
      applyRetention cfg
          (s.auditLog ++ [mkEntry s.sessionId type message meta o]) <:+
        s.auditLog ++ [mkEntry s.sessionId type message meta o] ∧
      (s.auditLog.length + 1 > cfg.maxEntries →
        (applyRetention cfg
            (s.auditLog ++
              [mkEntry s.sessionId type message meta o])).length =
          cfg.maxEntries) ∧
      (s.auditLog.length + 1 ≤ cfg.maxEntries →
        applyRetention cfg
            (s.auditLog ++ [mkEntry s.sessionId type message meta o]) =
          s.auditLog ++ [mkEntry s.sessionId type message meta o]) ∧
      ∀ (evs : List (EventInput × Oracle × Oracle)) (k : Nat),
        cfg.autoExport = false ∨ s.isExporting = true →
        evs.length = cfg.maxEntries + k → 1 ≤ k →
        (appendMany cfg s evs).auditLog =
            (entriesOf s.sessionId evs).drop k ∧
          ((entriesOf s.sessionId evs).drop k).length = cfg.maxEntries := by
  refine ⟨recordEvent_length_le cfg s type message meta o oExp, ?_,
    applyRetention_suffix cfg _, ?_, ?_, ?_⟩
  · intro h
    rw [recordEvent_noTrigger cfg s type message meta o oExp h]
    rfl
  · intro h
    rw [applyRetention_length]
    simp only [List.length_append, List.length_singleton]
    omega
  · intro h
    exact applyRetention_eq_of_le cfg _ (by simp; omega)
  · intro evs k hNo hLen hk
    obtain ⟨e1, _⟩ := appendMany_noExport cfg evs s hNo hlen
    have hEntries : (entriesOf s.sessionId evs).length =
        cfg.maxEntries + k := by
      rw [entriesOf_length, hLen]
    constructor
    · rw [e1]
      unfold applyRetention
      rw [if_pos (by simp only [List.length_append, hEntries]; omega)]
      have hd : (s.auditLog ++ entriesOf s.sessionId evs).length -
          cfg.maxEntries = s.auditLog.length + k := by
        simp only [List.length_append, hEntries]
        omega
      rw [hd, List.drop_append]
    · rw [List.length_drop, hEntries]
      omega

/-- Witness for C1 with capacity two, auto-export disabled, and three
appended entries: the log ends as exactly the last two created entries. -/
theorem c1_boundedRetention_witness :
    sEmptyW.auditLog.length ≤ cfgW.maxEntries ∧
    evsW.length = cfgW.maxEntries + 1 ∧
    (appendMany cfgW sEmptyW evsW).auditLog =
      (entriesOf sEmptyW.sessionId evsW).drop 1 ∧
    ((entriesOf sEmptyW.sessionId evsW).drop 1).length = cfgW.maxEntries := by
  refine ⟨by decide, by decide, ?_, ?_⟩
  · exact ((c1_boundedRetention cfgW sEmptyW "proof" "m" none oW oW
      (by decide)).2.2.2.2.2 evsW 1 (Or.inl rfl) (by decide) (by decide)).1
  · exact ((c1_boundedRetention cfgW sEmptyW "proof" "m" none oW oW
      (by decide)).2.2.2.2.2 evsW 1 (Or.inl rfl) (by decide) (by decide)).2

/-! ### C3: query with a limit -/

/-- **C3** counterexample.  On the one-entry state `s1W`, a query with
limit 0 returns the full log — not an empty sequence — because `0` is
falsy in the TS conditional that separates the limited from the unlimited
path. -/
theorem c3_counterexample :
    (getAuditTrail AUDIT_CONFIG s1W (some 0) oW oW).2 = s1W.auditLog ∧
    s1W.auditLog ≠ [] :=
  ⟨rfl, by decide⟩

/-- **C3** (amended).  A query with limit `k > 0` returns the last
`min k currentSize` entries of the pre-call log in insertion order (a
suffix); a query with no limit returns the full log in insertion order;
and a query with limit 0 also returns the full log (0 is falsy), not an
empty sequence. -/
theorem c3_queryLimit (cfg : AuditConfig) (s : RecorderState)
    (limit : Option Nat) (o oExp : Oracle) :
    (∀ k, limit = some k → 0 < k →
      (getAuditTrail cfg s limit o oExp).2 = jsSliceNeg k s.auditLog ∧
        (getAuditTrail cfg s limit o oExp).2.length =
          min k s.auditLog.length ∧
        (getAuditTrail cfg s limit o oExp).2 <:+ s.auditLog) ∧
    (limit = none → (getAuditTrail cfg s limit o oExp).2 = s.auditLog) ∧
    (limit = some 0 → (getAuditTrail cfg s limit o oExp).2 = s.auditLog) := by
  refine ⟨?_, ?_, ?_⟩
  · rintro k rfl hpos
    have ht : jsTruthyLimit (some k) = true := by
      simp [jsTruthyLimit]
      omega
    have hr : (getAuditTrail cfg s (some k) o oExp).2 =
        jsSliceNeg k s.auditLog := by
      show queryRecords s (some k) = _
      simp [queryRecords, ht]
    refine ⟨hr, ?_, ?_⟩
    · rw [hr]
      simp only [jsSliceNeg, List.length_drop]
      omega
    · rw [hr]
      exact List.drop_suffix _ _
  · rintro rfl
    rfl
  · rintro rfl
    rfl

/-- Witness for C3 at the nine-entry state `s9W` with limit two. -/
theorem c3_queryLimit_witness :
    (getAuditTrail AUDIT_CONFIG s9W (some 2) oW oW).2 =
      jsSliceNeg 2 s9W.auditLog ∧
    (getAuditTrail AUDIT_CONFIG s9W (some 2) oW oW).2.length =
      min 2 s9W.auditLog.length ∧
    (getAuditTrail AUDIT_CONFIG s9W none oW oW).2 = s9W.auditLog := by
  refine ⟨?_, ?_, ?_⟩
  · exact ((c3_queryLimit AUDIT_CONFIG s9W (some 2) oW oW).1 2 rfl
      (by decide)).1
  · exact ((c3_queryLimit AUDIT_CONFIG s9W (some 2) oW oW).1 2 rfl
      (by decide)).2.1
  · exact (c3_queryLimit AUDIT_CONFIG s9W none oW oW).2.1 rfl

/-! ### C5: the return value of an append -/

/-- **C5** counterexample.  `recordEvent` is declared `void` and returns no
value: two calls that create different entries return the same (empty)
value, so the operation does not return the entry it created. -/
theorem c5_counterexample :
    (recordEvent AUDIT_CONFIG s1W "proof" "a" none oW oW).2 =
      (recordEvent AUDIT_CONFIG s1W "system" "b" none oW oW).2 ∧
    mkEntry s1W.sessionId "proof" "a" none oW ≠
      mkEntry s1W.sessionId "system" "b" none oW :=
  ⟨rfl, by decide⟩

/-- **C5** (amended).  `recordEvent` returns nothing (its TS return type is
`void`); the entry it creates — with assigned id, timestamp, session id,
status and computed risk level — is appended at the end of the log by the
push-and-retention step (and, when the auto-export cannot fire, the whole
call is exactly that step). -/
theorem c5_returnsVoid (cfg : AuditConfig) (s : RecorderState)
    (type message : String) (meta : Option (List (String × String)))
    (o oExp : Oracle) (hM : 1 ≤ cfg.maxEntries) :
    (recordEvent cfg s type message meta o oExp).2 = () ∧
    (recordEventCore cfg s type message meta o).auditLog.getLast? =
      some (mkEntry s.sessionId type message meta o) ∧
    ((cfg.autoExport = false ∨ s.isExporting = true) →
      (recordEvent cfg s type message meta o oExp).1 =
        recordEventCore cfg s type message meta o) := by
  refine ⟨rfl, ?_, recordEvent_noTrigger cfg s type message meta o oExp⟩
  exact applyRetention_getLast_concat cfg s.auditLog _ hM

/-- Witness for C5 at the concrete one-entry state `s1W`. -/
theorem c5_returnsVoid_witness :
    1 ≤ AUDIT_CONFIG.maxEntries ∧
    (recordEventCore AUDIT_CONFIG s1W "proof" "a" none
        oW).auditLog.getLast? =
      some (mkEntry s1W.sessionId "proof" "a" none oW) :=
  ⟨by decide,
    (c5_returnsVoid AUDIT_CONFIG s1W "proof" "a" none oW oW
      (by decide)).2.1⟩

/-! ### C6: no category validation -/

/-- A recorder state with an export in flight, used to exhibit a plain
single push. -/
def sBusyW : RecorderState :=
  { auditLog := [], sessionId := "S", isExporting := true,
    startupTime := "boot" }

/-- **C6** counterexample.  A call with a category outside the fixed
enumeration is not rejected and the log does change: the entry is recorded
and its risk level is silently coerced to LOW by the fall-through of
`calculateRiskLevel`. -/
theorem c6_counterexample :
    "malicious" ∉ ["proof", "inference", "verification", "system"] ∧
    (recordEvent AUDIT_CONFIG sBusyW "malicious" "boom" none
        oW oW).1.auditLog ≠ sBusyW.auditLog ∧
    (recordEvent AUDIT_CONFIG sBusyW "malicious" "boom" none
        oW oW).1.auditLog.map AuditEntry.riskLevel = ["LOW"] := by
  refine ⟨by decide, by decide, by decide⟩

/-- **C6** (amended).  A call with a category outside the fixed enumeration
is not rejected: no validation error is raised, the entry is created with
risk level LOW (the fall-through default of `calculateRiskLevel`), and the
push-and-retention step records it like any other entry. -/
theorem c6_noValidation (cfg : AuditConfig) (s : RecorderState)
    (type message : String) (meta : Option (List (String × String)))
    (o : Oracle)
    (h : type ∉ ["proof", "inference", "verification", "system"]) :
    (mkEntry s.sessionId type message meta o).riskLevel = "LOW" ∧
    (recordEventCore cfg s type message meta o).auditLog =
      applyRetention cfg
        (s.auditLog ++ [mkEntry s.sessionId type message meta o]) := by
  refine ⟨?_, rfl⟩
  show calculateRiskLevel type meta = "LOW"
  simp only [List.mem_cons, List.not_mem_nil, or_false, not_or] at h
  obtain ⟨h1, h2, h3, h4⟩ := h
  simp [calculateRiskLevel, h1, h2, h3, h4]

/-- Witness for C6 with the out-of-enumeration category string bogus. -/
theorem c6_noValidation_witness :
    "bogus" ∉ ["proof", "inference", "verification", "system"] ∧
    (mkEntry sBusyW.sessionId "bogus" "m" none oW).riskLevel = "LOW" :=
  ⟨by decide,
    (c6_noValidation AUDIT_CONFIG sBusyW "bogus" "m" none oW
      (by decide)).1⟩

/-! ### C7: the four-append scenario -/

/-- The four appends of the C7 scenario, on the actual configuration:
system, proof with metadata complexity high, inference with metadata
sensitivity high, verification. -/
def fourAppends (s : RecorderState) (m1 m2 m3 m4 : String)
    (o1 oe1 o2 oe2 o3 oe3 o4 oe4 : Oracle) : RecorderState :=
  (recordEvent AUDIT_CONFIG
    ((recordEvent AUDIT_CONFIG
      ((recordEvent AUDIT_CONFIG
        ((recordEvent AUDIT_CONFIG s "system" m1 none o1 oe1).1)
        "proof" m2 (some [("complexity", "high")]) o2 oe2).1)
      "inference" m3 (some [("sensitivity", "high")]) o3 oe3).1)
    "verification" m4 none o4 oe4).1

/-- The concrete C7 run: fresh recorder, then the four appends. -/
def s7W : RecorderState :=
  fourAppends s1W "m1" "m2" "m3" "m4" oW oW oW oW oW oW oW oW

/-- **C7** counterexample.  After a fresh construction and the four
appends, the per-risk-level counts are low 2, high 2, medium 1 — not
low 1 — because the constructor already recorded one bootstrap system
entry at risk level LOW; the total is five entries, not four. -/
theorem c7_counterexample :
    (getStats s7W).2.byRiskLevel = [("LOW", 2), ("HIGH", 2), ("MEDIUM", 1)] ∧
    (getStats s7W).2.totalRecords = 5 := by
  refine ⟨by decide, by decide⟩

/-- **C7** (amended).  On a newly created recorder (whose constructor
records one bootstrap system entry, risk level LOW), appending four
entries with categories system, proof (metadata complexity high),
inference (metadata sensitivity high) and verification — in that order —
produces a five-entry log whose risk levels are LOW (bootstrap), LOW,
HIGH, HIGH, MEDIUM in order, and the per-risk-level counts afterwards are
LOW 2, HIGH 2, MEDIUM 1. -/
theorem c7_scenario (sid startup m1 m2 m3 m4 : String)
    (o0 oe0 o1 oe1 o2 oe2 o3 oe3 o4 oe4 : Oracle) :
    (fourAppends (initSystem AUDIT_CONFIG sid startup o0 oe0)
          m1 m2 m3 m4 o1 oe1 o2 oe2 o3 oe3 o4 oe4).auditLog.map
        AuditEntry.riskLevel = ["LOW", "LOW", "HIGH", "HIGH", "MEDIUM"] ∧
    (getStats (fourAppends (initSystem AUDIT_CONFIG sid startup o0 oe0)
          m1 m2 m3 m4 o1 oe1 o2 oe2 o3 oe3 o4 oe4)).2.byRiskLevel =
      [("LOW", 2), ("HIGH", 2), ("MEDIUM", 1)] := by
  have hInit : initSystem AUDIT_CONFIG sid startup o0 oe0 =
      ⟨[mkEntry sid "system" "Privacy Audit System initialized"
          (some [("version", "2.1.0"),
                 ("encryption", AUDIT_CONFIG.encryptionLevel),
                 ("sessionId", sid)]) o0], sid, false, startup⟩ := by
    unfold initSystem
    rw [recordEvent_step AUDIT_CONFIG _ _ _ _ _ _ (by norm_num [AUDIT_CONFIG])
      (by norm_num)]
    rfl
  have h1 : ∀ e1 : AuditEntry,
      (recordEvent AUDIT_CONFIG ⟨[e1], sid, false, startup⟩
        "system" m1 none o1 oe1).1 =
      ⟨[e1, mkEntry sid "system" m1 none o1], sid, false, startup⟩ := by
    intro e1
    rw [recordEvent_step AUDIT_CONFIG _ _ _ _ _ _ (by norm_num [AUDIT_CONFIG])
      (by norm_num)]
    rfl
  have h2 : ∀ e1 e2 : AuditEntry,
      (recordEvent AUDIT_CONFIG ⟨[e1, e2], sid, false, startup⟩
        "proof" m2 (some [("complexity", "high")]) o2 oe2).1 =
      ⟨[e1, e2, mkEntry sid "proof" m2 (some [("complexity", "high")]) o2],
        sid, false, startup⟩ := by
    intro e1 e2
    rw [recordEvent_step AUDIT_CONFIG _ _ _ _ _ _ (by norm_num [AUDIT_CONFIG])
      (by norm_num)]
    rfl
  have h3 : ∀ e1 e2 e3 : AuditEntry,
      (recordEvent AUDIT_CONFIG ⟨[e1, e2, e3], sid, false, startup⟩
        "inference" m3 (some [("sensitivity", "high")]) o3 oe3).1 =
      ⟨[e1, e2, e3,
          mkEntry sid "inference" m3 (some [("sensitivity", "high")]) o3],
        sid, false, startup⟩ := by
    intro e1 e2 e3
    rw [recordEvent_step AUDIT_CONFIG _ _ _ _ _ _ (by norm_num [AUDIT_CONFIG])
      (by norm_num)]
    rfl
  have h4 : ∀ e1 e2 e3 e4 : AuditEntry,
      (recordEvent AUDIT_CONFIG ⟨[e1, e2, e3, e4], sid, false, startup⟩
        "verification" m4 none o4 oe4).1 =
      ⟨[e1, e2, e3, e4, mkEntry sid "verification" m4 none o4],
        sid, false, startup⟩ := by
    intro e1 e2 e3 e4
    rw [recordEvent_step AUDIT_CONFIG _ _ _ _ _ _ (by norm_num [AUDIT_CONFIG])
      (by norm_num)]
    rfl
  unfold fourAppends
  rw [hInit, h1, h2, h3, h4]
  constructor
  · simp [mkEntry, calculateRiskLevel, metaGet]
  · simp [getStats, statsOf, statsStep, bump, mkEntry, calculateRiskLevel,
      metaGet]

/-! ### C9: the telemetry entry of a query -/

/-- **C9** counterexample.  From the reachable nine-entry state `s9W`, a
query leaves the log eleven entries long, not ten: the telemetry push
makes the length ten, which fires the auto-export and synchronously
records a second system entry. -/
theorem c9_counterexample :
    s9W.auditLog.length = 9 ∧
    (getAuditTrail AUDIT_CONFIG s9W none oW oW).1.auditLog.length = 11 :=
  ⟨by decide, by decide⟩

/-- **C9** (amended).  `getAuditTrail` computes its result from the
pre-call log (the returned sequence is a suffix of it, so it never
contains an entry generated by the call itself) and only then records one
system telemetry entry via `recordEvent`; afterwards the log is one entry
longer, capped at `maxEntries` — except when the telemetry push fires the
auto-export with no export in flight, in which case a second system entry
is recorded and the log is two entries longer, capped at `maxEntries`. -/
theorem c9_queryTelemetry (cfg : AuditConfig) (s : RecorderState)
    (limit : Option Nat) (o oExp : Oracle)
    (hlen : s.auditLog.length ≤ cfg.maxEntries) :
    (getAuditTrail cfg s limit o oExp).2 <:+ s.auditLog ∧
    (getAuditTrail cfg s limit o oExp).1 =
      (recordEvent cfg s "system" (queryMessage s limit)
        (some (queryMeta limit o)) o oExp).1 ∧
    ((autoExportTrigger cfg (recordEventCore cfg s "system"
          (queryMessage s limit) (some (queryMeta limit o)) o) = false ∨
        s.isExporting = true) →
      (getAuditTrail cfg s limit o oExp).1.auditLog.length =
        min (s.auditLog.length + 1) cfg.maxEntries) ∧
    (autoExportTrigger cfg (recordEventCore cfg s "system"
        (queryMessage s limit) (some (queryMeta limit o)) o) = true →
      s.isExporting = false →
      (getAuditTrail cfg s limit o oExp).1.auditLog.length =
        min (s.auditLog.length + 2) cfg.maxEntries) := by
  refine ⟨?_, rfl, ?_, ?_⟩
  · show queryRecords s limit <:+ s.auditLog
    unfold queryRecords
    split
    · exact List.drop_suffix _ _
    · exact List.suffix_refl _
  · intro h
    show (recordEvent cfg s "system" (queryMessage s limit)
        (some (queryMeta limit o)) o oExp).1.auditLog.length = _
    rw [recordEvent_length_eq cfg s _ _ _ o oExp hlen]
    rcases h with h | h
    · rw [if_neg (by simp [h])]
    · rw [if_neg (by simp [h])]
  · intro h1 h2
    show (recordEvent cfg s "system" (queryMessage s limit)
        (some (queryMeta limit o)) o oExp).1.auditLog.length = _
    rw [recordEvent_length_eq cfg s _ _ _ o oExp hlen]
    rw [if_pos (by simp [h1, h2])]

/-- Witness for C9 at the concrete one-entry state `s1W` (no auto-export
fires there: the log grows from one to two entries). -/
theorem c9_queryTelemetry_witness :
    s1W.auditLog.length ≤ AUDIT_CONFIG.maxEntries ∧
    (getAuditTrail AUDIT_CONFIG s1W none oW oW).2 <:+ s1W.auditLog ∧
    (getAuditTrail AUDIT_CONFIG s1W none oW oW).1.auditLog.length =
      min (s1W.auditLog.length + 1) AUDIT_CONFIG.maxEntries :=
  ⟨by decide,
    (c9_queryTelemetry AUDIT_CONFIG s1W none oW oW (by decide)).1,
    (c9_queryTelemetry AUDIT_CONFIG s1W none oW oW (by decide)).2.2.1
      (Or.inl (by decide))⟩

end PrivacyAudit
